import Mathlib

/-!
Verification of the scheduling + delivery pipeline of the agentic outreach
system, as a shallow embedding in Lean 4.

The embedding covers:
* the message scheduler (src/agent/tools/message_scheduler.py): slot finding,
  occupancy state, capacity and spacing behaviour;
* the email error classifier and batch delivery engine
  (src/agent/tools/email_sender.py);
* the SendGrid webhook event tracker (src/routers/webhooks.py).

Modelling conventions:
* Timestamps are integers counting minutes (UTC).  The campaign operating
  timezone America/New_York is modelled with the fixed offset UTC-5
  (tzOffset = -300 minutes); daylight saving does not affect any of the
  properties proved here.
* Python dictionaries keyed by date/channel are modelled as functions from
  date and channel to the stored entry, with the same defaulting behaviour
  as dict.get.
* Fallible I/O (database reads, the SendGrid client) is modelled with
  explicit Except / Option parameters.
-/

namespace Outreach

/-! ## Time model -/

/-- Minutes in one day. -/
def minutesPerDay : Int := 1440

/-- Fixed offset (minutes) of the campaign timezone America/New_York
relative to UTC, modelled as UTC-5. -/
def tzOffset : Int := -300

/-- Calendar date (day index) of a UTC timestamp, as used by
datetime.date() on a UTC datetime. -/
def utcDate (t : Int) : Int := t.ediv minutesPerDay

/-- Calendar date of a UTC timestamp in the campaign timezone, as used by
datetime.now(tz).date(). -/
def localDate (t : Int) : Int := (t + tzOffset).ediv minutesPerDay

/-- Minute of the local day of a UTC timestamp in the campaign timezone. -/
def localMinute (t : Int) : Int := (t + tzOffset).emod minutesPerDay

/-- Convert a naive campaign-local wall-clock time (date plus minute of the
day) to a UTC timestamp; this is tz.localize followed by astimezone(UTC). -/
def localize (d minutes : Int) : Int := d * minutesPerDay + minutes - tzOffset

theorem localDate_decomp (t : Int) :
    minutesPerDay * localDate t + localMinute t = t + tzOffset ∧
      0 ≤ localMinute t ∧ localMinute t < minutesPerDay := by
  refine ⟨Int.ediv_add_emod _ _, Int.emod_nonneg _ (by decide), Int.emod_lt_of_pos _ (by decide)⟩

theorem utcDate_decomp (t : Int) :
    minutesPerDay * utcDate t + t.emod minutesPerDay = t ∧
      0 ≤ t.emod minutesPerDay ∧ t.emod minutesPerDay < minutesPerDay := by
  refine ⟨Int.ediv_add_emod _ _, Int.emod_nonneg _ (by decide), Int.emod_lt_of_pos _ (by decide)⟩

/-- The local (UTC-5) calendar date never runs ahead of the UTC date. -/
theorem localDate_le_utcDate (t : Int) : localDate t ≤ utcDate t := by
  have h1 := localDate_decomp t
  have h2 := utcDate_decomp t
  simp only [minutesPerDay, tzOffset] at h1 h2 ⊢
  omega

/-! ## Error classifier (EmailError.categorize, email_sender.py lines 27-77) -/

/-- Does the pattern occur at the head of the character list? -/
def matchAt : List Char → List Char → Bool
  | [], _ => true
  | _ :: _, [] => false
  | p :: ps, c :: cs => p == c && matchAt ps cs

/-- Python substring containment (pat in hay) on character lists. -/
def containsChars : List Char → List Char → Bool
  | [], pat => pat.isEmpty
  | c :: cs, pat => matchAt pat (c :: cs) || containsChars cs pat

/-- Characters of a string lowercased, modelling str.lower() on the ASCII
error strings involved. -/
def lowerData (s : String) : List Char := s.data.map Char.toLower

/-- Substring test against a lowercased error message, modelling
pattern in error_message.lower(). -/
def strContainsLower (s pat : String) : Bool := containsChars (lowerData s) pat.data

/-- EmailError.ERROR_PATTERNS: ordered category/pattern table, in Python
dict insertion order. -/
def ERROR_PATTERNS : List (String × List String) :=
  [("rate_limit", ["rate limit", "too many requests", "429"]),
   ("authentication", ["unauthorized", "invalid api key", "401", "403"]),
   ("invalid_email", ["invalid email", "bad recipient", "invalid address", "550"]),
   ("content_error", ["content", "spam", "blocked", "rejected"]),
   ("network_error", ["connection", "timeout", "network", "dns"]),
   ("temporary_error", ["temporary", "try again", "503", "504"]),
   ("permanent_error", ["permanent", "bounce", "551", "552", "553"])]

/-- The categories considered retryable by EmailError.categorize. -/
def retryableCategories : List String := ["rate_limit", "network_error", "temporary_error"]

/-- First-match scan over the pattern table. -/
def categorizeAux (lower : List Char) : List (String × List String) → String × Bool
  | [] => ("unknown", false)
  | (cat, pats) :: rest =>
    if pats.any (fun p => containsChars lower p.data) then
      (cat, retryableCategories.contains cat)
    else categorizeAux lower rest

/-- EmailError.categorize: error text to (category, is_retryable). -/
def categorize (error_message : String) : String × Bool :=
  categorizeAux (lowerData error_message) ERROR_PATTERNS

/-- The code patterns of the categories the classifier checks before
network_error (rate_limit, authentication, invalid_email, content_error). -/
def patternsBeforeNetwork : List String :=
  ["rate limit", "too many requests", "429",
   "unauthorized", "invalid api key", "401", "403",
   "invalid email", "bad recipient", "invalid address", "550",
   "content", "spam", "blocked", "rejected"]

/-- C4 counterexample: the error string "timeout" contains "timeout" and no
trigger of the spec categories before temporary_error (rate_limit,
authentication, invalid_email), yet the classifier returns network_error,
not temporary_error: the code checks its network_error category (whose
patterns include "timeout") before temporary_error. -/
theorem categorize_timeout_not_temporary :
    strContainsLower "timeout" "timeout" = true ∧
    (∀ p ∈ ["rate limit", "too many requests", "429",
            "unauthorized", "invalid api key", "401", "403",
            "invalid email", "bad recipient", "invalid address", "550"],
        strContainsLower "timeout" p = false) ∧
    categorize "timeout" = ("network_error", true) ∧
    categorize "timeout" ≠ ("temporary_error", true) := by
  refine ⟨by decide, by decide, by decide, by decide⟩

/-- C4 amended: every error string containing "timeout" (case-insensitively)
and none of the patterns of the categories the code checks first
(rate_limit, authentication, invalid_email, content_error) is classified
as network_error with is_retryable = true. -/
theorem categorize_timeout_network_error (s : String)
    (ht : strContainsLower s "timeout" = true)
    (hs : ∀ p ∈ patternsBeforeNetwork, strContainsLower s p = false) :
    categorize s = ("network_error", true) := by
  have h01 := hs "rate limit" (by simp [patternsBeforeNetwork])
  have h02 := hs "too many requests" (by simp [patternsBeforeNetwork])
  have h03 := hs "429" (by simp [patternsBeforeNetwork])
  have h04 := hs "unauthorized" (by simp [patternsBeforeNetwork])
  have h05 := hs "invalid api key" (by simp [patternsBeforeNetwork])
  have h06 := hs "401" (by simp [patternsBeforeNetwork])
  have h07 := hs "403" (by simp [patternsBeforeNetwork])
  have h08 := hs "invalid email" (by simp [patternsBeforeNetwork])
  have h09 := hs "bad recipient" (by simp [patternsBeforeNetwork])
  have h10 := hs "invalid address" (by simp [patternsBeforeNetwork])
  have h11 := hs "550" (by simp [patternsBeforeNetwork])
  have h12 := hs "content" (by simp [patternsBeforeNetwork])
  have h13 := hs "spam" (by simp [patternsBeforeNetwork])
  have h14 := hs "blocked" (by simp [patternsBeforeNetwork])
  have h15 := hs "rejected" (by simp [patternsBeforeNetwork])
  simp only [strContainsLower] at ht h01 h02 h03 h04 h05 h06 h07 h08 h09 h10 h11 h12 h13 h14 h15
  simp [categorize, categorizeAux, ERROR_PATTERNS, retryableCategories,
    ht, h01, h02, h03, h04, h05, h06, h07, h08, h09, h10, h11, h12, h13, h14, h15]

/-- C4 amended witness: the concrete input "timeout" satisfies the
hypotheses and is classified as retryable network_error. -/
theorem categorize_timeout_network_error_witness :
    (strContainsLower "timeout" "timeout" = true ∧
      ∀ p ∈ patternsBeforeNetwork, strContainsLower "timeout" p = false) ∧
    categorize "timeout" = ("network_error", true) :=
  ⟨⟨by decide, by decide⟩,
    categorize_timeout_network_error "timeout" (by decide) (by decide)⟩

/-- C5: the classifier returns exactly (rate_limit, retryable) on
"429 rate limit", (authentication, not retryable) on "401 unauthorized",
and (unknown, not retryable) on "garbage". -/
theorem categorize_determinism :
    categorize "429 rate limit" = ("rate_limit", true) ∧
    categorize "401 unauthorized" = ("authentication", false) ∧
    categorize "garbage" = ("unknown", false) := by
  refine ⟨by decide, by decide, by decide⟩

/-! ## Message scheduler (message_scheduler.py)

The scheduler state dict (date -> channel -> {count, times}) is modelled as
a function; dict.get with the zeroed default entry coincides with the
function returning the empty entry.  Channels are the two channels the
system uses ("email" and "linkedin", the only keys the scheduler state ever
holds).  The database clock datetime.utcnow() / datetime.now(tz) is passed
in as the parameter now, frozen for the duration of one run. -/

inductive Channel where
  | email
  | linkedin
deriving DecidableEq, Repr

/-- One per-date/per-channel occupancy entry: {'count': .., 'times': [..]}. -/
structure ChanSched where
  count : Nat
  times : List Int
deriving DecidableEq, Repr

/-- Occupancy map of a campaign: date -> channel -> entry. -/
def ScheduleState := Int → Channel → ChanSched

/-- The zeroed entry {'count': 0, 'times': []}. -/
def emptyChan : ChanSched := ⟨0, []⟩

/-- The empty schedule state {}. -/
def emptyState : ScheduleState := fun _ _ => emptyChan

/-- MessageScheduler.BUSINESS_START_HOUR. -/
def BUSINESS_START_HOUR : Int := 9

/-- MessageScheduler.BUSINESS_END_HOUR. -/
def BUSINESS_END_HOUR : Int := 17

/-- MessageScheduler.MIN_GAP_MINUTES. -/
def MIN_GAP_MINUTES : Int := 5

/-- Python max over a nonempty list, as foldl of the head and tail. -/
def foldMax (x : Int) (xs : List Int) : Int := xs.foldl max x

/-- MessageScheduler._calculate_next_slot_time: next available time on
target_date given the already-used times, or none.  The Python code sorts
day_times and then takes max(day_times); only the maximum is used, so the
sort is omitted. -/
def calculateNextSlotTime (now target_date : Int) (existing_times : List Int) : Option Int :=
  let start0 := localize target_date (BUSINESS_START_HOUR * 60)
  let end_time := localize target_date (BUSINESS_END_HOUR * 60)
  let start_time := if localDate now = target_date ∧ start0 < now then now + 1 else start0
  let day_times := existing_times.filter (fun t => localDate t == target_date)
  match day_times with
  | [] => if start_time < end_time then some start_time else none
  | t0 :: rest =>
    let last_time := foldMax t0 rest
    let next_slot := last_time + MIN_GAP_MINUTES
    if next_slot < end_time then
      let next_slot2 := if next_slot < now then now + 1 else next_slot
      if next_slot2 < end_time then some next_slot2 else none
    else none

/-- Default max_days_ahead of _find_available_slot. -/
def MAX_DAYS_AHEAD : Nat := 14

/-- Day-scanning loop of _find_available_slot, with the remaining horizon
as fuel. -/
def findAvailableSlotAux (now : Int) (channel : Channel) (daily_limit : Nat) (st : ScheduleState) :
    Nat → Int → Option Int
  | 0, _ => none
  | fuel + 1, current_date =>
    let cs := st current_date channel
    if cs.count < daily_limit then
      match calculateNextSlotTime now current_date cs.times with
      | some t => some t
      | none => findAvailableSlotAux now channel daily_limit st fuel (current_date + 1)
    else findAvailableSlotAux now channel daily_limit st fuel (current_date + 1)

/-- MessageScheduler._find_available_slot. -/
def findAvailableSlot (now target_date : Int) (channel : Channel) (daily_limit : Nat)
    (st : ScheduleState) : Option Int :=
  findAvailableSlotAux now channel daily_limit st MAX_DAYS_AHEAD target_date

/-- MessageScheduler._update_schedule_state: increment the count and append
the time at the (UTC) date of the new send time. -/
def updateScheduleState (st : ScheduleState) (send_time : Int) (channel : Channel) : ScheduleState :=
  fun d c =>
    if d = utcDate send_time ∧ c = channel then
      ⟨(st d c).count + 1, (st d c).times ++ [send_time]⟩
    else st d c

/-- One sequence step handed to the scheduler (content generation output).
Missing dict keys are represented by their .get defaults. -/
structure SeqMessage where
  day_delay : Nat
  sequence_number : Option Nat
  content : String
  subject : String
  linkedin_type : String
deriving DecidableEq, Repr

/-- A persisted message row as created by the scheduler (the fields the
pipeline reads back). -/
structure MessageRecord where
  campaign_id : String
  lead_id : String
  channel : Channel
  direction : String
  status : String
  send_at : Int
  content : String
  subject : Option String
  message_type : Option String
  sequence_number : Option Nat
  day_delay : Nat
deriving DecidableEq, Repr

/-- The message_data dict built in _schedule_channel_messages. -/
def buildMessageRecord (campaign_id lead_id : String) (channel : Channel) (send_time : Int)
    (m : SeqMessage) : MessageRecord :=
  { campaign_id := campaign_id, lead_id := lead_id, channel := channel,
    direction := "outbound", status := "scheduled", send_at := send_time,
    content := m.content,
    subject := if channel = .email then some m.subject else none,
    message_type := if channel = .linkedin then some m.linkedin_type else none,
    sequence_number := m.sequence_number,
    day_delay := m.day_delay }

/-- The initial target date of a sequence step, as the code computes it:
(datetime.utcnow() + timedelta(days=day_delay)).date(). -/
def targetDate (now : Int) (day_delay : Nat) : Int := utcDate now + day_delay

/-- Target date as the spec words it (step 1 of the Slot Finder):
today(campaign_tz) + day_delay.  Stated for comparison with targetDate;
the code uses the UTC date, not the campaign-timezone date. -/
def targetDateSpec (now : Int) (day_delay : Nat) : Int := localDate now + day_delay

/-- MessageScheduler._schedule_channel_messages. -/
def scheduleChannelMessages (now : Int) (campaign_id lead_id : String) (channel : Channel)
    (daily_limit : Nat) : List SeqMessage → ScheduleState → List MessageRecord × ScheduleState
  | [], st => ([], st)
  | m :: rest, st =>
    match findAvailableSlot now (targetDate now m.day_delay) channel daily_limit st with
    | none => scheduleChannelMessages now campaign_id lead_id channel daily_limit rest st
    | some send_time =>
      let p := scheduleChannelMessages now campaign_id lead_id channel daily_limit rest
        (updateScheduleState st send_time channel)
      (buildMessageRecord campaign_id lead_id channel send_time m :: p.1, p.2)

/-- MessageScheduler.schedule_outreach_messages: iterate the channel
sequences, skipping channels whose daily limit is absent or 0. -/
def scheduleOutreachMessages (now : Int) (campaign_id lead_id : String)
    (daily_limits : Channel → Nat) :
    List (Channel × List SeqMessage) → ScheduleState → List MessageRecord × ScheduleState
  | [], st => ([], st)
  | (channel, msgs) :: rest, st =>
    if daily_limits channel = 0 then
      scheduleOutreachMessages now campaign_id lead_id daily_limits rest st
    else
      let p := scheduleChannelMessages now campaign_id lead_id channel (daily_limits channel) msgs st
      let q := scheduleOutreachMessages now campaign_id lead_id daily_limits rest p.2
      (p.1 ++ q.1, q.2)

/-- The store-side query of _get_campaign_schedule_state: messages of the
campaign with status scheduled and send_at at or after now. -/
def queryScheduled (now : Int) (campaign_id : String) (store : List MessageRecord) :
    List MessageRecord :=
  store.filter (fun m =>
    m.campaign_id == campaign_id && m.status == "scheduled" && decide (now ≤ m.send_at))

/-- Occupancy map built from the queried rows (the organizing loop of
_get_campaign_schedule_state, which performs the same per-row update as
_update_schedule_state). -/
def buildScheduleState (rows : List MessageRecord) : ScheduleState :=
  rows.foldl (fun st m => updateScheduleState st m.send_at m.channel) emptyState

/-- MessageScheduler._get_campaign_schedule_state: the store read is passed
in as an Except; on a read error the code logs and returns the empty dict
(the error is swallowed, not propagated). -/
def getCampaignScheduleState (read : Except String (List MessageRecord)) : ScheduleState :=
  match read with
  | .ok rows => buildScheduleState rows
  | .error _ => emptyState

/-- The ToolResult returned by schedule_outreach_messages (fields the
callers read). -/
structure SchedulingResult where
  success : Bool
  error : Option String
  scheduled_messages : List MessageRecord
  total_scheduled : Nat
deriving DecidableEq, Repr

/-- One full scheduling run of schedule_outreach_messages: load the
occupancy state (read models the database response), schedule every
channel sequence, and return the materialized records. -/
def scheduleOutreachRun (read : Except String (List MessageRecord)) (now : Int)
    (sequences : List (Channel × List SeqMessage)) (campaign_id lead_id : String)
    (daily_limits : Channel → Nat) : SchedulingResult :=
  let st := getCampaignScheduleState read
  let msgs := (scheduleOutreachMessages now campaign_id lead_id daily_limits sequences st).1
  { success := true, error := none, scheduled_messages := msgs,
    total_scheduled := msgs.length }

/-- The inputs of one scheduling run against the shared message store. -/
structure RunInput where
  now : Int
  campaign_id : String
  lead_id : String
  sequences : List (Channel × List SeqMessage)
  daily_limits : Channel → Nat

/-- Execute one run against the store: the occupancy is loaded through the
scheduled/send_at query and the materialized messages are appended. -/
def runOnStore (store : List MessageRecord) (r : RunInput) : List MessageRecord :=
  store ++ (scheduleOutreachRun (.ok (queryScheduled r.now r.campaign_id store)) r.now
    r.sequences r.campaign_id r.lead_id r.daily_limits).scheduled_messages

/-- Execute a sequence of scheduling runs against the store. -/
def runAll (runs : List RunInput) (store : List MessageRecord) : List MessageRecord :=
  runs.foldl runOnStore store

/-- Number of non-cancelled messages of a campaign/channel/date in the
store. -/
def countNonCancelled (store : List MessageRecord) (campaign_id : String) (channel : Channel)
    (d : Int) : Nat :=
  (store.filter (fun m => m.campaign_id == campaign_id && m.channel == channel &&
    utcDate m.send_at == d && m.status != "cancelled")).length

/-- Spacing relation of the spec: two messages of the same campaign and
channel whose send_at fall on the same date are at least MIN_GAP_MINUTES
apart. -/
def spacedPair (a b : MessageRecord) : Prop :=
  a.campaign_id = b.campaign_id → a.channel = b.channel →
    utcDate a.send_at = utcDate b.send_at → MIN_GAP_MINUTES ≤ |a.send_at - b.send_at|

/-! ## Concrete scenario: two runs at different wall-clock times

Day index 20000 (any date).  Run 1 happens at 15:00 UTC (10:00 campaign
local) and schedules one email at now+1 minute.  Run 2 happens two minutes
later; the occupancy query filters on send_at >= now, so run 1's message
(send_at one minute in the past) is invisible, and run 2 schedules a second
email on the same date, one minute after its own now. -/

def exDay : Int := 20000

def exSequences : List (Channel × List SeqMessage) :=
  [(Channel.email, [⟨0, some 1, "hello", "subj", "message"⟩])]

def exLimits : Channel → Nat := fun _ => 1

def exRun1 : RunInput := ⟨exDay * 1440 + 900, "c1", "lead1", exSequences, exLimits⟩

def exRun2 : RunInput := ⟨exDay * 1440 + 902, "c1", "lead2", exSequences, exLimits⟩

def exStore : List MessageRecord := runAll [exRun1, exRun2] []

/-- C1 counterexample: after the two runs above, the campaign has two
non-cancelled scheduled email messages on the same date although the email
daily limit is 1.  The occupancy loader only counts still-future scheduled
messages, so capacity is not preserved across runs as wall-clock time
advances. -/
theorem capacity_violated_across_runs :
    exLimits Channel.email = 1 ∧
    countNonCancelled exStore "c1" Channel.email exDay = 2 := by
  refine ⟨rfl, by decide⟩

/-- C2 counterexample: the same two runs produce two messages of the same
campaign and channel on the same date whose send_at differ by only 2
minutes, violating the 5-minute spacing. -/
theorem spacing_violated_across_runs :
    exStore.map (fun m => (m.campaign_id, m.channel, utcDate m.send_at, m.send_at)) =
      [("c1", Channel.email, exDay, exDay * 1440 + 901),
       ("c1", Channel.email, exDay, exDay * 1440 + 903)] ∧
    |(exDay * 1440 + 903 : Int) - (exDay * 1440 + 901)| < MIN_GAP_MINUTES := by
  refine ⟨by decide, by decide⟩

/-- C3 counterexample: with the store read failing, the run still reports
success and materializes a message; _get_campaign_schedule_state swallows
the read error and returns an empty occupancy map instead of propagating a
scheduling-level failure. -/
theorem read_error_run_succeeds :
    (scheduleOutreachRun (.error "connection refused") (exDay * 1440 + 900) exSequences
        "c1" "lead1" exLimits).success = true ∧
    (scheduleOutreachRun (.error "connection refused") (exDay * 1440 + 900) exSequences
        "c1" "lead1" exLimits).total_scheduled = 1 := by
  refine ⟨rfl, by decide⟩

/-- C3 amended: on a read error the loader returns the empty occupancy map
and the run proceeds exactly as if no messages were scheduled, completing
successfully; the error is not propagated and messages are still
materialized. -/
theorem read_error_yields_empty_state (e : String) (now : Int)
    (sequences : List (Channel × List SeqMessage)) (campaign_id lead_id : String)
    (daily_limits : Channel → Nat) :
    scheduleOutreachRun (.error e) now sequences campaign_id lead_id daily_limits =
      scheduleOutreachRun (.ok []) now sequences campaign_id lead_id daily_limits ∧
    (scheduleOutreachRun (.error e) now sequences campaign_id lead_id daily_limits).success
      = true := by
  exact ⟨rfl, rfl⟩

/-- C6 counterexample: at now = 60 minutes after midnight UTC (day 0), the
campaign-local date is still day -1, so the spec target date (campaign-tz
today + day_delay) is -1; the code computes the UTC date, 0. -/
theorem targetDate_uses_utc_not_campaign_tz :
    targetDate 60 0 = 0 ∧ targetDateSpec 60 0 = -1 ∧
    targetDate 60 0 ≠ targetDateSpec 60 0 := by
  refine ⟨by decide, by decide, by decide⟩

/-- C6 amended: the initial target date of a sequence step equals the
current UTC date plus day_delay; this is always at or after the
campaign-timezone date plus day_delay, and coincides with it whenever the
two calendar dates agree. -/
theorem targetDate_utc (now : Int) (day_delay : Nat) :
    targetDate now day_delay = utcDate now + day_delay ∧
    targetDateSpec now day_delay ≤ targetDate now day_delay ∧
    (localDate now = utcDate now → targetDate now day_delay = targetDateSpec now day_delay) := by
  refine ⟨rfl, ?_, ?_⟩
  · have := localDate_le_utcDate now
    simp only [targetDate, targetDateSpec]
    omega
  · intro h
    simp [targetDate, targetDateSpec, h]

/-- C6 amended witness: at now = 15:00 UTC on day 20000 with day_delay 2,
the target date is 20002. -/
theorem targetDate_utc_witness :
    localDate (exDay * 1440 + 900) = utcDate (exDay * 1440 + 900) ∧
    targetDate (exDay * 1440 + 900) 2 = targetDateSpec (exDay * 1440 + 900) 2 :=
  ⟨by decide, (targetDate_utc (exDay * 1440 + 900) 2).2.2 (by decide)⟩

/-- Every record produced by _schedule_channel_messages carries the channel
it was invoked for. -/
theorem scheduleChannelMessages_channel (now : Int) (campaign_id lead_id : String)
    (channel : Channel) (daily_limit : Nat) :
    ∀ (msgs : List SeqMessage) (st : ScheduleState),
      ∀ m ∈ (scheduleChannelMessages now campaign_id lead_id channel daily_limit msgs st).1,
        m.channel = channel := by
  intro msgs
  induction msgs with
  | nil => intro st m hm; simp [scheduleChannelMessages] at hm
  | cons head rest ih =>
    intro st m hm
    simp only [scheduleChannelMessages] at hm
    rcases hfind : findAvailableSlot now (targetDate now head.day_delay) channel daily_limit st with
      _ | t
    · rw [hfind] at hm
      exact ih st m hm
    · rw [hfind] at hm
      simp only [List.mem_cons] at hm
      rcases hm with hm | hm
      · subst hm; rfl
      · exact ih _ m hm

/-- C10: channels whose daily limit is absent or 0 are skipped entirely:
the run behaves exactly as if those channel sequences were removed, every
materialized message belongs to a channel with a nonzero limit, and the run
still completes successfully. -/
theorem zero_limit_channels_skipped (read : Except String (List MessageRecord)) (now : Int)
    (campaign_id lead_id : String) (daily_limits : Channel → Nat)
    (sequences : List (Channel × List SeqMessage)) (st : ScheduleState) :
    scheduleOutreachMessages now campaign_id lead_id daily_limits sequences st =
      scheduleOutreachMessages now campaign_id lead_id daily_limits
        (sequences.filter (fun p => daily_limits p.1 != 0)) st ∧
    (∀ m ∈ (scheduleOutreachMessages now campaign_id lead_id daily_limits sequences st).1,
        daily_limits m.channel ≠ 0) ∧
    (scheduleOutreachRun read now sequences campaign_id lead_id daily_limits).success = true := by
  refine ⟨?_, ?_, rfl⟩
  · induction sequences generalizing st with
    | nil => rfl
    | cons head rest ih =>
      obtain ⟨channel, msgs⟩ := head
      by_cases h : daily_limits channel = 0
      · have hb : ((channel, msgs) :: rest).filter (fun p => daily_limits p.1 != 0) =
            rest.filter (fun p => daily_limits p.1 != 0) := by
          simp [List.filter_cons, h]
        rw [hb]
        simp only [scheduleOutreachMessages, h, if_true]
        exact ih st
      · have hb : ((channel, msgs) :: rest).filter (fun p => daily_limits p.1 != 0) =
            (channel, msgs) :: rest.filter (fun p => daily_limits p.1 != 0) := by
          simp [List.filter_cons, h]
        rw [hb]
        simp only [scheduleOutreachMessages, h, if_false]
        rw [← ih]
  · induction sequences generalizing st with
    | nil => intro m hm; simp [scheduleOutreachMessages] at hm
    | cons head rest ih =>
      obtain ⟨channel, msgs⟩ := head
      intro m hm
      by_cases h : daily_limits channel = 0
      · simp only [scheduleOutreachMessages, h, if_true] at hm
        exact ih _ m hm
      · simp only [scheduleOutreachMessages, h, if_false] at hm
        simp only [List.mem_append] at hm
        rcases hm with hm | hm
        · have := scheduleChannelMessages_channel now campaign_id lead_id channel
            (daily_limits channel) msgs st m hm
          rw [this]; exact h
        · exact ih _ m hm

/-! ## Capacity and spacing machinery

The amended C1/C2 invariants quantify over sequences of runs that observe
one fixed current time; the lemmas below track, through one run, that the
in-memory occupancy map stays in sync with the message store. -/

theorem foldMax_cons (x y : Int) (ys : List Int) : foldMax x (y :: ys) = foldMax (max x y) ys := rfl

theorem foldMax_mem_cons (x : Int) (xs : List Int) : foldMax x xs ∈ x :: xs := by
  induction xs generalizing x with
  | nil => simp [foldMax]
  | cons y ys ih =>
    rw [foldMax_cons]
    have h := ih (max x y)
    simp only [List.mem_cons] at h ⊢
    rcases h with h | h
    · rcases max_choice x y with hm | hm
      · left; rw [h, hm]
      · right; left; rw [h, hm]
    · right; right; exact h

theorem le_foldMax (x : Int) (xs : List Int) : ∀ y ∈ x :: xs, y ≤ foldMax x xs := by
  induction xs generalizing x with
  | nil => intro y hy; simp only [List.mem_singleton] at hy; simp [foldMax, hy]
  | cons z zs ih =>
    intro y hy
    rw [foldMax_cons]
    simp only [List.mem_cons] at hy
    rcases hy with rfl | rfl | hy
    · exact le_trans (le_max_left y z) (ih (max y z) (max y z) (List.mem_cons_self _ _))
    · exact le_trans (le_max_right x y) (ih (max x y) (max x y) (List.mem_cons_self _ _))
    · exact ih (max x z) y (List.mem_cons_of_mem _ hy)

/-- A timestamp inside the business-hours window has the same calendar date
in the campaign timezone and in UTC. -/
theorem localDate_eq_utcDate_of_window (t : Int)
    (h1 : BUSINESS_START_HOUR * 60 ≤ localMinute t)
    (h2 : localMinute t < BUSINESS_END_HOUR * 60) :
    localDate t = utcDate t := by
  have hl := localDate_decomp t
  have hu := utcDate_decomp t
  simp only [minutesPerDay, tzOffset] at hl hu
  simp only [BUSINESS_START_HOUR, BUSINESS_END_HOUR] at h1 h2
  omega

/-- Every slot _calculate_next_slot_time accepts lies in the business-hours
window of the requested date, is not in the past, and is at least the
minimum gap after every already-used time of that date. -/
theorem calculateNextSlotTime_spec (now d t : Int) (times : List Int)
    (htimes : ∀ x ∈ times, now ≤ x ∧ BUSINESS_START_HOUR * 60 ≤ localMinute x ∧
      localMinute x < BUSINESS_END_HOUR * 60 ∧ utcDate x = d)
    (hd : localDate now ≤ d)
    (h : calculateNextSlotTime now d times = some t) :
    BUSINESS_START_HOUR * 60 ≤ localMinute t ∧ localMinute t < BUSINESS_END_HOUR * 60 ∧
      utcDate t = d ∧ now ≤ t ∧ ∀ x ∈ times, x + MIN_GAP_MINUTES ≤ t := by
  have hfilter : times.filter (fun x => localDate x == d) = times := by
    apply List.filter_eq_self.2
    intro x hx
    obtain ⟨-, h1, h2, h3⟩ := htimes x hx
    have := localDate_eq_utcDate_of_window x h1 h2
    simp [this, h3]
  rcases hts : times with _ | ⟨t0, rest⟩
  · subst hts
    simp only [calculateNextSlotTime, List.filter_nil] at h
    by_cases hcl : localDate now = d ∧ localize d (BUSINESS_START_HOUR * 60) < now
    · rw [if_pos hcl] at h
      split_ifs at h with hlt
      · simp only [Option.some.injEq] at h
        subst h
        obtain ⟨hcl1, hcl2⟩ := hcl
        have h1 := localDate_decomp now
        have h2 := localDate_decomp (now + 1)
        have h3 := utcDate_decomp (now + 1)
        simp only [minutesPerDay, tzOffset, localize, BUSINESS_START_HOUR, BUSINESS_END_HOUR,
          MIN_GAP_MINUTES] at h1 h2 h3 hcl2 hlt ⊢
        refine ⟨by omega, by omega, by omega, by omega,
          by intro x hx; exact absurd hx (List.not_mem_nil x)⟩
    · rw [if_neg hcl] at h
      split_ifs at h with hlt
      · simp only [Option.some.injEq] at h
        subst h
        have h1 := localDate_decomp now
        have h2 := localDate_decomp (localize d (BUSINESS_START_HOUR * 60))
        have h3 := utcDate_decomp (localize d (BUSINESS_START_HOUR * 60))
        rw [not_and_or] at hcl
        rcases hcl with hcl | hcl
        · have hdlt : localDate now < d := lt_of_le_of_ne hd hcl
          simp only [minutesPerDay, tzOffset, localize, BUSINESS_START_HOUR, BUSINESS_END_HOUR,
            MIN_GAP_MINUTES] at h1 h2 h3 hlt ⊢
          refine ⟨by omega, by omega, by omega, by omega,
            by intro x hx; exact absurd hx (List.not_mem_nil x)⟩
        · simp only [not_lt] at hcl
          simp only [minutesPerDay, tzOffset, localize, BUSINESS_START_HOUR, BUSINESS_END_HOUR,
            MIN_GAP_MINUTES] at h1 h2 h3 hlt hcl ⊢
          refine ⟨by omega, by omega, by omega, by omega,
            by intro x hx; exact absurd hx (List.not_mem_nil x)⟩
  · have htimes2 := htimes
    rw [hts] at htimes2 hfilter h
    simp only [calculateNextSlotTime, hfilter] at h
    have hMmem : foldMax t0 rest ∈ t0 :: rest := foldMax_mem_cons t0 rest
    obtain ⟨hMnow, hMw1, hMw2, hMdate⟩ := htimes2 (foldMax t0 rest) hMmem
    have hMld : localDate (foldMax t0 rest) = utcDate (foldMax t0 rest) :=
      localDate_eq_utcDate_of_window _ hMw1 hMw2
    have hMdec := localDate_decomp (foldMax t0 rest)
    split_ifs at h with hA hB hC
    · -- bumped to now + 1
      simp only [Option.some.injEq] at h
      subst h
      have h1 := localDate_decomp (now + 1)
      have h2 := utcDate_decomp (now + 1)
      simp only [minutesPerDay, tzOffset, localize, BUSINESS_START_HOUR, BUSINESS_END_HOUR,
        MIN_GAP_MINUTES] at h1 h2 hA hB hC hMdec hMw1 hMw2 hMdate hMld ⊢
      refine ⟨by omega, by omega, by omega, by omega, ?_⟩
      intro x hx
      have hxle := le_foldMax t0 rest x hx
      omega
    · -- slot at max + gap
      simp only [Option.some.injEq] at h
      subst h
      have h1 := localDate_decomp (foldMax t0 rest + MIN_GAP_MINUTES)
      have h2 := utcDate_decomp (foldMax t0 rest + MIN_GAP_MINUTES)
      simp only [minutesPerDay, tzOffset, localize, BUSINESS_START_HOUR, BUSINESS_END_HOUR,
        MIN_GAP_MINUTES] at h1 h2 hA hB hMdec hMw1 hMw2 hMdate hMld ⊢
      refine ⟨by omega, by omega, by omega, by omega, ?_⟩
      intro x hx
      have hxle := le_foldMax t0 rest x hx
      omega

/-- Every slot _find_available_slot returns lies in the business window, is
not in the past, lands on a date/channel cell with spare capacity, and
respects the minimum gap against every time already recorded in that cell. -/
theorem findAvailableSlotAux_spec (now : Int) (ch : Channel) (lim : Nat) (st : ScheduleState)
    (hst : ∀ d : Int, ∀ x ∈ (st d ch).times, now ≤ x ∧
      BUSINESS_START_HOUR * 60 ≤ localMinute x ∧ localMinute x < BUSINESS_END_HOUR * 60 ∧
      utcDate x = d) :
    ∀ (fuel : Nat) (cur t : Int), localDate now ≤ cur →
      findAvailableSlotAux now ch lim st fuel cur = some t →
      BUSINESS_START_HOUR * 60 ≤ localMinute t ∧ localMinute t < BUSINESS_END_HOUR * 60 ∧
        now ≤ t ∧ (st (utcDate t) ch).count < lim ∧
        ∀ x ∈ (st (utcDate t) ch).times, x + MIN_GAP_MINUTES ≤ t := by
  intro fuel
  induction fuel with
  | zero => intro cur t _ h; simp [findAvailableSlotAux] at h
  | succ fuel ih =>
    intro cur t hcur h
    simp only [findAvailableSlotAux] at h
    by_cases hc : (st cur ch).count < lim
    · rw [if_pos hc] at h
      rcases hcalc : calculateNextSlotTime now cur (st cur ch).times with _ | t2
      · rw [hcalc] at h
        exact ih (cur + 1) t (by omega) h
      · rw [hcalc] at h
        simp only [Option.some.injEq] at h
        subst h
        obtain ⟨h1, h2, h3, h4, h5⟩ :=
          calculateNextSlotTime_spec now cur t2 ((st cur ch).times) (hst cur) hcur hcalc
        rw [h3]
        exact ⟨h1, h2, h4, hc, h5⟩
    · rw [if_neg hc] at h
      exact ih (cur + 1) t (by omega) h

/-- The store invariant maintained across scheduling runs that all observe
the current time now: every message is a scheduled, still-future message
inside the business window; per campaign/channel/date counts respect the
limits L; and messages of one campaign/channel/date are pairwise at least
the minimum gap apart. -/
def GoodStore (now : Int) (L : String → Channel → Nat) (S : List MessageRecord) : Prop :=
  (∀ m ∈ S, m.status = "scheduled" ∧ now ≤ m.send_at ∧
    BUSINESS_START_HOUR * 60 ≤ localMinute m.send_at ∧
    localMinute m.send_at < BUSINESS_END_HOUR * 60) ∧
  (∀ (c : String) (ch : Channel) (d : Int), countNonCancelled S c ch d ≤ L c ch) ∧
  List.Pairwise spacedPair S

/-- The occupancy map a run loads for campaign c from store S. -/
def loadState (now : Int) (c : String) (S : List MessageRecord) : ScheduleState :=
  buildScheduleState (queryScheduled now c S)

theorem buildScheduleState_foldl (rows : List MessageRecord) (st0 : ScheduleState)
    (d : Int) (ch : Channel) :
    (rows.foldl (fun st m => updateScheduleState st m.send_at m.channel) st0) d ch =
      ⟨(st0 d ch).count +
          (rows.filter (fun m => utcDate m.send_at == d && m.channel == ch)).length,
        (st0 d ch).times ++
          (rows.filter (fun m => utcDate m.send_at == d && m.channel == ch)).map
            (fun m => m.send_at)⟩ := by
  induction rows generalizing st0 with
  | nil => simp
  | cons m rows ih =>
    rw [List.foldl_cons, ih]
    rw [List.filter_cons]
    by_cases hcond : utcDate m.send_at = d ∧ m.channel = ch
    · have hb : (utcDate m.send_at == d && m.channel == ch) = true := by
        simp [hcond.1, hcond.2]
      rw [hb]
      simp only [if_true]
      have hu : updateScheduleState st0 m.send_at m.channel d ch =
          ⟨(st0 d ch).count + 1, (st0 d ch).times ++ [m.send_at]⟩ := by
        simp [updateScheduleState, hcond.1, hcond.2]
      rw [hu]
      simp [List.append_assoc]
      omega
    · have hb : (utcDate m.send_at == d && m.channel == ch) = false := by
        rcases not_and_or.1 hcond with hx | hx <;> simp [hx]
      rw [hb]
      simp only [Bool.false_eq_true, if_false]
      have hu : updateScheduleState st0 m.send_at m.channel d ch = st0 d ch := by
        simp only [updateScheduleState]
        rw [if_neg]
        intro ⟨ha, hb2⟩
        exact hcond ⟨ha.symm, hb2.symm⟩
      rw [hu]

theorem loadState_apply (now : Int) (c : String) (S : List MessageRecord)
    (d : Int) (ch : Channel) :
    loadState now c S d ch =
      ⟨((queryScheduled now c S).filter
          (fun m => utcDate m.send_at == d && m.channel == ch)).length,
        ((queryScheduled now c S).filter
          (fun m => utcDate m.send_at == d && m.channel == ch)).map (fun m => m.send_at)⟩ := by
  have h := buildScheduleState_foldl (queryScheduled now c S) emptyState d ch
  simpa [loadState, buildScheduleState, emptyState, emptyChan] using h

/-- Unpack a membership in the times of a loaded occupancy cell. -/
theorem loadState_times_subset (now : Int) (c : String) (S : List MessageRecord)
    (d : Int) (ch : Channel) (x : Int) (hx : x ∈ (loadState now c S d ch).times) :
    ∃ m, m ∈ S ∧ m.campaign_id = c ∧ m.status = "scheduled" ∧ now ≤ m.send_at ∧
      utcDate m.send_at = d ∧ m.channel = ch ∧ m.send_at = x := by
  rw [loadState_apply] at hx
  simp only [List.mem_map] at hx
  obtain ⟨m, hm2, hxeq⟩ := hx
  simp only [List.mem_filter, queryScheduled, Bool.and_eq_true, beq_iff_eq,
    decide_eq_true_eq] at hm2
  refine ⟨m, ?_, ?_, ?_, ?_, ?_, ?_, hxeq⟩ <;> tauto

/-- Conversely, every scheduled still-future message of the campaign
appears in the times of its occupancy cell. -/
theorem loadState_times_mem_of (now : Int) (c : String) (S : List MessageRecord)
    (m : MessageRecord) (hm : m ∈ S) (h1 : m.campaign_id = c) (h2 : m.status = "scheduled")
    (h3 : now ≤ m.send_at) :
    m.send_at ∈ (loadState now c S (utcDate m.send_at) m.channel).times := by
  rw [loadState_apply]
  simp only [List.mem_map]
  refine ⟨m, ?_, rfl⟩
  simp only [List.mem_filter, queryScheduled, Bool.and_eq_true, beq_iff_eq,
    decide_eq_true_eq]
  tauto

/-- On a store of scheduled, still-future messages, the loaded occupancy
count of a cell equals the store count of non-cancelled messages of that
campaign/channel/date. -/
theorem loadState_count_eq (now : Int) (c : String) (S : List MessageRecord)
    (d : Int) (ch : Channel)
    (hAll : ∀ m ∈ S, m.status = "scheduled" ∧ now ≤ m.send_at) :
    (loadState now c S d ch).count = countNonCancelled S c ch d := by
  rw [loadState_apply]
  simp only [countNonCancelled, queryScheduled, List.filter_filter]
  apply congrArg List.length
  apply List.filter_congr
  intro m hm
  obtain ⟨hstat, hsend⟩ := hAll m hm
  have h1 : (m.status == "scheduled") = true := by simp [hstat]
  have h2 : decide (now ≤ m.send_at) = true := by simp [hsend]
  have h3 : (m.status != "cancelled") = true := by rw [hstat]; decide
  simp only [h1, h2, h3, Bool.and_true]
  cases m.campaign_id == c <;> cases m.channel == ch <;> cases utcDate m.send_at == d <;> rfl

theorem countNonCancelled_append (S1 S2 : List MessageRecord) (c : String) (ch : Channel)
    (d : Int) :
    countNonCancelled (S1 ++ S2) c ch d =
      countNonCancelled S1 c ch d + countNonCancelled S2 c ch d := by
  simp [countNonCancelled, List.filter_append]

/-- Appending a scheduled still-future message of campaign c to the store
advances the loaded occupancy exactly like _update_schedule_state. -/
theorem loadState_append_good (now : Int) (c : String) (S : List MessageRecord)
    (r : MessageRecord) (h1 : r.campaign_id = c) (h2 : r.status = "scheduled")
    (h3 : now ≤ r.send_at) (d : Int) (ch : Channel) :
    loadState now c (S ++ [r]) d ch =
      updateScheduleState (loadState now c S) r.send_at r.channel d ch := by
  have hq : queryScheduled now c (S ++ [r]) = queryScheduled now c S ++ [r] := by
    simp [queryScheduled, List.filter_append, h1, h2, h3]
  simp only [loadState, hq, buildScheduleState]
  rw [List.foldl_append]
  rfl

/-- Materializing one slot returned by _find_available_slot preserves the
store invariant and keeps the in-memory occupancy map in sync with the
store. -/
theorem alloc_step (now : Int) (L : String → Channel → Nat) (c lid : String) (ch : Channel)
    (S : List MessageRecord) (st : ScheduleState) (m : SeqMessage) (t : Int)
    (hG : GoodStore now L S)
    (hrel : ∀ (d : Int) (ch2 : Channel), st d ch2 = loadState now c S d ch2)
    (hfind : findAvailableSlot now (targetDate now m.day_delay) ch (L c ch) st = some t) :
    GoodStore now L (S ++ [buildMessageRecord c lid ch t m]) ∧
      ∀ (d : Int) (ch2 : Channel), updateScheduleState st t ch d ch2 =
        loadState now c (S ++ [buildMessageRecord c lid ch t m]) d ch2 := by
  obtain ⟨hAll, hCap, hPair⟩ := hG
  have hst : ∀ d : Int, ∀ x ∈ (st d ch).times, now ≤ x ∧
      BUSINESS_START_HOUR * 60 ≤ localMinute x ∧ localMinute x < BUSINESS_END_HOUR * 60 ∧
      utcDate x = d := by
    intro d x hx
    rw [hrel d ch] at hx
    obtain ⟨m2, hm2, hcamp, hstat, hsend, hdate, hchan, hxeq⟩ :=
      loadState_times_subset now c S d ch x hx
    obtain ⟨-, -, hw1, hw2⟩ := hAll m2 hm2
    subst hxeq
    exact ⟨hsend, hw1, hw2, hdate⟩
  have htarget : localDate now ≤ targetDate now m.day_delay := by
    have := localDate_le_utcDate now
    simp only [targetDate]
    omega
  obtain ⟨hw1, hw2, hnow, hcount, hspace⟩ :=
    findAvailableSlotAux_spec now ch (L c ch) st hst MAX_DAYS_AHEAD
      (targetDate now m.day_delay) t htarget hfind
  have hrcamp : (buildMessageRecord c lid ch t m).campaign_id = c := rfl
  have hrstat : (buildMessageRecord c lid ch t m).status = "scheduled" := rfl
  have hrsend : (buildMessageRecord c lid ch t m).send_at = t := rfl
  have hrchan : (buildMessageRecord c lid ch t m).channel = ch := rfl
  constructor
  · refine ⟨?_, ?_, ?_⟩
    · intro m2 hm2
      rw [List.mem_append] at hm2
      rcases hm2 with hm2 | hm2
      · exact hAll m2 hm2
      · simp only [List.mem_singleton] at hm2
        subst hm2
        exact ⟨hrstat, by rw [hrsend]; exact hnow, by rw [hrsend]; exact hw1,
          by rw [hrsend]; exact hw2⟩
    · intro c2 ch2 d2
      rw [countNonCancelled_append]
      by_cases hhit : c2 = c ∧ ch2 = ch ∧ d2 = utcDate t
      · rw [hhit.1, hhit.2.1, hhit.2.2]
        have hone : countNonCancelled [buildMessageRecord c lid ch t m] c ch (utcDate t) ≤ 1 := by
          have := List.length_filter_le
            (fun (m2 : MessageRecord) => m2.campaign_id == c && m2.channel == ch &&
              (utcDate m2.send_at == utcDate t) && (m2.status != "cancelled"))
            [buildMessageRecord c lid ch t m]
          simpa [countNonCancelled] using this
        have hlt : countNonCancelled S c ch (utcDate t) < L c ch := by
          have he := loadState_count_eq now c S (utcDate t) ch
            (fun m2 hm2 => ⟨(hAll m2 hm2).1, (hAll m2 hm2).2.1⟩)
          rw [← he]
          rw [← hrel (utcDate t) ch]
          exact hcount
        omega
      · have hzero : countNonCancelled [buildMessageRecord c lid ch t m] c2 ch2 d2 = 0 := by
          simp only [countNonCancelled, List.length_eq_zero, List.filter_eq_nil_iff]
          intro x hx
          simp only [List.mem_singleton] at hx
          subst hx
          simp only [hrcamp, hrchan, hrsend, Bool.and_eq_true, beq_iff_eq, bne_iff_ne,
            not_and, ne_eq]
          intro hcc
          obtain ⟨⟨hc2, hch2⟩, hd2⟩ := hcc
          exact absurd ⟨hc2.symm, hch2.symm, hd2.symm⟩ hhit
        rw [hzero]
        have := hCap c2 ch2 d2
        omega
    · rw [List.pairwise_append]
      refine ⟨hPair, List.pairwise_singleton _ _, ?_⟩
      intro a ha b hb
      simp only [List.mem_singleton] at hb
      subst hb
      intro hcampeq hchaneq hdateeq
      rw [hrcamp] at hcampeq
      rw [hrchan] at hchaneq
      rw [hrsend] at hdateeq
      obtain ⟨hastat, hasend, -, -⟩ := hAll a ha
      have hmem : a.send_at ∈ (loadState now c S (utcDate a.send_at) a.channel).times :=
        loadState_times_mem_of now c S a ha hcampeq hastat hasend
      rw [hdateeq, hchaneq] at hmem
      rw [← hrel (utcDate t) ch] at hmem
      have hgap := hspace a.send_at hmem
      rw [hrsend]
      rw [abs_sub_comm]
      rw [abs_of_nonneg (by simp only [MIN_GAP_MINUTES] at hgap; omega)]
      simp only [MIN_GAP_MINUTES] at hgap ⊢
      omega
  · intro d ch2
    rw [loadState_append_good now c S (buildMessageRecord c lid ch t m) hrcamp hrstat
      (by rw [hrsend]; exact hnow) d ch2]
    rw [hrsend, hrchan]
    simp only [updateScheduleState]
    rw [hrel d ch2]

/-- _schedule_channel_messages preserves the store invariant and the
store/occupancy correspondence. -/
theorem scheduleChannelMessages_preserves (now : Int) (L : String → Channel → Nat)
    (c lid : String) (ch : Channel) :
    ∀ (msgs : List SeqMessage) (S : List MessageRecord) (st : ScheduleState),
      GoodStore now L S →
      (∀ (d : Int) (ch2 : Channel), st d ch2 = loadState now c S d ch2) →
      GoodStore now L (S ++ (scheduleChannelMessages now c lid ch (L c ch) msgs st).1) ∧
      ∀ (d : Int) (ch2 : Channel),
        (scheduleChannelMessages now c lid ch (L c ch) msgs st).2 d ch2 =
          loadState now c (S ++ (scheduleChannelMessages now c lid ch (L c ch) msgs st).1)
            d ch2 := by
  intro msgs
  induction msgs with
  | nil =>
    intro S st hG hrel
    simp only [scheduleChannelMessages, List.append_nil]
    exact ⟨hG, hrel⟩
  | cons m rest ih =>
    intro S st hG hrel
    rcases hfind : findAvailableSlot now (targetDate now m.day_delay) ch (L c ch) st with _ | t
    · have hred : scheduleChannelMessages now c lid ch (L c ch) (m :: rest) st =
          scheduleChannelMessages now c lid ch (L c ch) rest st := by
        simp only [scheduleChannelMessages, hfind]
      rw [hred]
      exact ih S st hG hrel
    · obtain ⟨hG2, hrel2⟩ := alloc_step now L c lid ch S st m t ⟨hG.1, hG.2.1, hG.2.2⟩ hrel hfind
      obtain ⟨hG3, hrel3⟩ :=
        ih (S ++ [buildMessageRecord c lid ch t m]) (updateScheduleState st t ch) hG2 hrel2
      have hred : scheduleChannelMessages now c lid ch (L c ch) (m :: rest) st =
          (buildMessageRecord c lid ch t m ::
            (scheduleChannelMessages now c lid ch (L c ch) rest
              (updateScheduleState st t ch)).1,
           (scheduleChannelMessages now c lid ch (L c ch) rest
              (updateScheduleState st t ch)).2) := by
        simp only [scheduleChannelMessages, hfind]
      rw [hred]
      constructor
      · have hl : S ++ (buildMessageRecord c lid ch t m ::
            (scheduleChannelMessages now c lid ch (L c ch) rest
              (updateScheduleState st t ch)).1) =
            (S ++ [buildMessageRecord c lid ch t m]) ++
              (scheduleChannelMessages now c lid ch (L c ch) rest
                (updateScheduleState st t ch)).1 := by
          simp
        rw [hl]
        exact hG3
      · intro d ch2
        have hl : S ++ (buildMessageRecord c lid ch t m ::
            (scheduleChannelMessages now c lid ch (L c ch) rest
              (updateScheduleState st t ch)).1) =
            (S ++ [buildMessageRecord c lid ch t m]) ++
              (scheduleChannelMessages now c lid ch (L c ch) rest
                (updateScheduleState st t ch)).1 := by
          simp
        rw [hl]
        exact hrel3 d ch2

/-- schedule_outreach_messages preserves the store invariant and the
store/occupancy correspondence, for any per-channel limits that agree with
the campaign's limits. -/
theorem scheduleOutreachMessages_preserves (now : Int) (L : String → Channel → Nat)
    (c lid : String) (limits : Channel → Nat) (hlim : ∀ ch, limits ch = L c ch) :
    ∀ (sequences : List (Channel × List SeqMessage)) (S : List MessageRecord)
      (st : ScheduleState),
      GoodStore now L S →
      (∀ (d : Int) (ch2 : Channel), st d ch2 = loadState now c S d ch2) →
      GoodStore now L (S ++ (scheduleOutreachMessages now c lid limits sequences st).1) ∧
      ∀ (d : Int) (ch2 : Channel),
        (scheduleOutreachMessages now c lid limits sequences st).2 d ch2 =
          loadState now c (S ++ (scheduleOutreachMessages now c lid limits sequences st).1)
            d ch2 := by
  intro sequences
  induction sequences with
  | nil =>
    intro S st hG hrel
    simp only [scheduleOutreachMessages, List.append_nil]
    exact ⟨hG, hrel⟩
  | cons head rest ih =>
    obtain ⟨ch0, msgs⟩ := head
    intro S st hG hrel
    by_cases hz : limits ch0 = 0
    · have hred : scheduleOutreachMessages now c lid limits ((ch0, msgs) :: rest) st =
          scheduleOutreachMessages now c lid limits rest st := by
        simp only [scheduleOutreachMessages, hz, if_true]
      rw [hred]
      exact ih S st hG hrel
    · have hred : scheduleOutreachMessages now c lid limits ((ch0, msgs) :: rest) st =
          ((scheduleChannelMessages now c lid ch0 (L c ch0) msgs st).1 ++
            (scheduleOutreachMessages now c lid limits rest
              (scheduleChannelMessages now c lid ch0 (L c ch0) msgs st).2).1,
           (scheduleOutreachMessages now c lid limits rest
              (scheduleChannelMessages now c lid ch0 (L c ch0) msgs st).2).2) := by
        simp only [scheduleOutreachMessages, hz, if_false]
        rw [hlim ch0]
      rw [hred]
      obtain ⟨hG2, hrel2⟩ := scheduleChannelMessages_preserves now L c lid ch0 msgs S st hG hrel
      obtain ⟨hG3, hrel3⟩ :=
        ih (S ++ (scheduleChannelMessages now c lid ch0 (L c ch0) msgs st).1)
          (scheduleChannelMessages now c lid ch0 (L c ch0) msgs st).2 hG2 hrel2
      rw [List.append_assoc] at hG3 hrel3
      exact ⟨hG3, hrel3⟩

/-- One run of the scheduler against the store preserves the invariant,
provided the run observes the shared current time and the campaign's
limits. -/
theorem runOnStore_preserves (N : Int) (L : String → Channel → Nat) (r : RunInput)
    (S : List MessageRecord) (hnow : r.now = N)
    (hlim : ∀ ch, r.daily_limits ch = L r.campaign_id ch)
    (hG : GoodStore N L S) : GoodStore N L (runOnStore S r) := by
  subst hnow
  exact (scheduleOutreachMessages_preserves r.now L r.campaign_id r.lead_id r.daily_limits hlim
    r.sequences S (getCampaignScheduleState (.ok (queryScheduled r.now r.campaign_id S)))
    hG (fun d ch2 => rfl)).1

theorem goodStore_nil (N : Int) (L : String → Channel → Nat) : GoodStore N L [] := by
  refine ⟨by simp, ?_, List.Pairwise.nil⟩
  intro c ch d
  simp [countNonCancelled]

/-- Any sequence of runs at one shared current time preserves the
invariant. -/
theorem runAll_preserves (N : Int) (L : String → Channel → Nat) :
    ∀ (runs : List RunInput) (S : List MessageRecord),
      (∀ r ∈ runs, r.now = N ∧ ∀ ch, r.daily_limits ch = L r.campaign_id ch) →
      GoodStore N L S → GoodStore N L (runAll runs S) := by
  intro runs
  induction runs with
  | nil => intro S _ hG; exact hG
  | cons r rest ih =>
    intro S h hG
    have hr := h r (List.mem_cons_self r rest)
    exact ih (runOnStore S r) (fun r2 h2 => h r2 (List.mem_cons_of_mem r h2))
      (runOnStore_preserves N L r S hr.1 hr.2 hG)

/-- C1 amended: starting from an empty store, after any sequence of
scheduling runs that all observe the same current time N and use the
campaign's fixed daily limits L, the number of non-cancelled messages per
campaign/channel/date never exceeds the daily limit of that channel.  (As
C1's counterexample shows, the unamended claim fails once wall-clock time
advances between runs, because the occupancy loader only counts scheduled
messages with send_at at or after its own current time.) -/
theorem capacity_invariant_fixed_now (N : Int) (L : String → Channel → Nat)
    (runs : List RunInput)
    (h : ∀ r ∈ runs, r.now = N ∧ ∀ ch, r.daily_limits ch = L r.campaign_id ch)
    (campaign_id : String) (channel : Channel) (d : Int) :
    countNonCancelled (runAll runs []) campaign_id channel d ≤ L campaign_id channel :=
  (runAll_preserves N L runs [] h (goodStore_nil N L)).2.1 campaign_id channel d

/-- C1 amended witness: one concrete run at a fixed current time respects
the email daily limit 1. -/
theorem capacity_invariant_fixed_now_witness :
    (∀ r ∈ [exRun1], r.now = exDay * 1440 + 900 ∧
        ∀ ch, r.daily_limits ch = (fun (_ : String) (_ : Channel) => 1) r.campaign_id ch) ∧
    countNonCancelled (runAll [exRun1] []) "c1" Channel.email exDay ≤ 1 := by
  constructor
  · intro r hr
    simp only [List.mem_singleton] at hr
    subst hr
    exact ⟨rfl, fun _ => rfl⟩
  · exact capacity_invariant_fixed_now (exDay * 1440 + 900) (fun _ _ => 1) [exRun1]
      (by intro r hr
          simp only [List.mem_singleton] at hr
          subst hr
          exact ⟨rfl, fun _ => rfl⟩)
      "c1" Channel.email exDay

/-- C2 amended: starting from an empty store, after any sequence of
scheduling runs that all observe the same current time N and use the
campaign's fixed daily limits, any two messages of the same campaign and
channel whose send_at fall on the same date are at least 5 minutes apart.
(As C2's counterexample shows, the unamended claim fails once wall-clock
time advances between runs.) -/
theorem spacing_invariant_fixed_now (N : Int) (L : String → Channel → Nat)
    (runs : List RunInput)
    (h : ∀ r ∈ runs, r.now = N ∧ ∀ ch, r.daily_limits ch = L r.campaign_id ch) :
    List.Pairwise spacedPair (runAll runs []) :=
  (runAll_preserves N L runs [] h (goodStore_nil N L)).2.2

/-- C2 amended witness: one concrete run at a fixed current time yields a
pairwise-spaced store. -/
theorem spacing_invariant_fixed_now_witness :
    (∀ r ∈ [exRun2], r.now = exDay * 1440 + 902 ∧
        ∀ ch, r.daily_limits ch = (fun (_ : String) (_ : Channel) => 1) r.campaign_id ch) ∧
    List.Pairwise spacedPair (runAll [exRun2] []) := by
  constructor
  · intro r hr
    simp only [List.mem_singleton] at hr
    subst hr
    exact ⟨rfl, fun _ => rfl⟩
  · exact spacing_invariant_fixed_now (exDay * 1440 + 902) (fun _ _ => 1) [exRun2]
      (by intro r hr
          simp only [List.mem_singleton] at hr
          subst hr
          exact ⟨rfl, fun _ => rfl⟩)

/-! ## Batch delivery engine (email_sender.py)

The lead store and the SendGrid client are modelled as function parameters:
leads maps a lead id to its row (None when the fetch fails or the lead is
missing), provider maps the (subject, content) of one grouped mail to the
provider response or a raised error.  asyncio.sleep calls are counted in
the returned outcome. -/

/-- A lead row as used for personalization; a missing/empty email address
is the falsy case of lead_data.get('email'). -/
structure Lead where
  email : String
  first_name : String
  last_name : String
  company : String
  title : String
deriving DecidableEq, Repr

/-- A due message row handed to send_batch_emails. -/
structure BatchMsg where
  id : String
  lead_id : String
  campaign_id : String
  subject : String
  content : String
deriving DecidableEq, Repr

/-- One per-message result entry of the batch sender. -/
inductive MsgResult where
  | success (message_id : String) (sendgrid_message_id : Option String) (status_code : Nat)
  | failure (message_id : String) (error : String) (error_category : String)
      (is_retryable : Bool)
deriving DecidableEq, Repr

/-- A successful SendGrid response (X-Message-Id header and status code). -/
structure SgResponse where
  sendgrid_message_id : Option String
  status_code : Nat
deriving DecidableEq, Repr

/-- One content group of _send_batch_with_personalizations: messages with
the same subject/content key share one provider call. -/
structure ContentGroup where
  key : String
  subject : String
  content : String
  recipients : List (BatchMsg × Lead)
deriving DecidableEq, Repr

/-- The grouping key f-string subject||content. -/
def groupKey (m : BatchMsg) : String := m.subject ++ "||" ++ m.content

/-- Append a recipient to its content group (Python dict insertion order:
first match wins, new keys go to the end). -/
def addToGroups : List ContentGroup → BatchMsg → Lead → List ContentGroup
  | [], m, l => [⟨groupKey m, m.subject, m.content, [(m, l)]⟩]
  | g :: gs, m, l =>
    if g.key = groupKey m then
      { g with recipients := g.recipients ++ [(m, l)] } :: gs
    else g :: addToGroups gs m l

/-- One step of the first loop of _send_batch_with_personalizations: fetch
the lead, fail the message as invalid_email when the lead or its email is
missing, otherwise add it to its content group. -/
def collectStep (leads : String → Option Lead)
    (acc : List ContentGroup × Nat × List MsgResult) (msg : BatchMsg) :
    List ContentGroup × Nat × List MsgResult :=
  match leads msg.lead_id with
  | some l =>
    if l.email = "" then
      (acc.1, acc.2.1 + 1, acc.2.2 ++
        [MsgResult.failure msg.id "Lead data not found or missing email" "invalid_email" false])
    else (addToGroups acc.1 msg l, acc.2.1, acc.2.2)
  | none =>
    (acc.1, acc.2.1 + 1, acc.2.2 ++
      [MsgResult.failure msg.id "Lead data not found or missing email" "invalid_email" false])

/-- First phase: group the chunk's messages by content, recording failures
for messages without a usable lead. -/
def collectGroups (leads : String → Option Lead) (messages : List BatchMsg) :
    List ContentGroup × Nat × List MsgResult :=
  messages.foldl (collectStep leads) ([], 0, [])

/-- One step of the send loop: one provider call per nonempty content
group; on success every recipient is marked sent, on an exception every
recipient is marked failed with the classified error. -/
def sendStep (provider : String → String → Except String SgResponse)
    (acc : Nat × Nat × List MsgResult) (g : ContentGroup) : Nat × Nat × List MsgResult :=
  if g.recipients.isEmpty then acc
  else
    match provider g.subject g.content with
    | .ok resp =>
      (acc.1 + g.recipients.length, acc.2.1,
        acc.2.2 ++ g.recipients.map (fun r =>
          MsgResult.success r.1.id resp.sendgrid_message_id resp.status_code))
    | .error e =>
      (acc.1, acc.2.1 + g.recipients.length,
        acc.2.2 ++ g.recipients.map (fun r =>
          MsgResult.failure r.1.id e (categorize e).1 (categorize e).2))

/-- Second phase: send every content group. -/
def sendContentGroups (provider : String → String → Except String SgResponse)
    (groups : List ContentGroup) : Nat × Nat × List MsgResult :=
  groups.foldl (sendStep provider) (0, 0, [])

/-- EmailSender._send_batch_with_personalizations on one chunk:
(sent, failed, results). -/
def sendBatchWithPersonalizations (leads : String → Option Lead)
    (provider : String → String → Except String SgResponse)
    (messages : List BatchMsg) : Nat × Nat × List MsgResult :=
  let collected := collectGroups leads messages
  let sent := sendContentGroups provider collected.1
  (sent.1, collected.2.1 + sent.2.1, collected.2.2 ++ sent.2.2)

/-- EmailSender.BATCH_SIZE. -/
def BATCH_SIZE : Nat := 100

/-- The chunk decomposition of the range(0, len, BATCH_SIZE) loop of
send_batch_emails. -/
def chunkList : List BatchMsg → List (List BatchMsg)
  | [] => []
  | m :: rest =>
    (m :: rest).take BATCH_SIZE :: chunkList ((m :: rest).drop BATCH_SIZE)
termination_by l => l.length
decreasing_by
  simp only [List.length_drop, List.length_cons, BATCH_SIZE]
  omega

/-- Send the chunks in order; the fourth component counts the inter-chunk
asyncio.sleep(1) calls, performed exactly when more messages remain
(i + BATCH_SIZE < len). -/
def sendChunkList (leads : String → Option Lead)
    (provider : String → String → Except String SgResponse) :
    List (List BatchMsg) → Nat × Nat × List MsgResult × Nat
  | [] => (0, 0, [], 0)
  | [chunk] =>
    let r := sendBatchWithPersonalizations leads provider chunk
    (r.1, r.2.1, r.2.2, 0)
  | chunk :: next :: rest =>
    let r := sendBatchWithPersonalizations leads provider chunk
    let q := sendChunkList leads provider (next :: rest)
    (r.1 + q.1, r.2.1 + q.2.1, r.2.2 ++ q.2.2.1, q.2.2.2 + 1)

/-- The ToolResult of send_batch_emails, with the observable count of
inter-chunk sleeps.  In the empty-messages early return the Python data
dict has no total key; total is 0 here. -/
structure BatchSendOutcome where
  success : Bool
  error : Option String
  sent : Nat
  failed : Nat
  total : Nat
  results : List MsgResult
  sleeps : Nat
deriving DecidableEq, Repr

/-- EmailSender.send_batch_emails. -/
def sendBatchEmails (leads : String → Option Lead)
    (provider : String → String → Except String SgResponse)
    (api_key : String) (messages : List BatchMsg) : BatchSendOutcome :=
  if messages.isEmpty then
    { success := true, error := none, sent := 0, failed := 0, total := 0,
      results := [], sleeps := 0 }
  else if api_key = "" then
    { success := false, error := some "Invalid or missing SendGrid API key",
      sent := 0, failed := 0, total := 0, results := [], sleeps := 0 }
  else
    let r := sendChunkList leads provider (chunkList messages)
    { success := true, error := none, sent := r.1, failed := r.2.1,
      total := messages.length, results := r.2.2.1, sleeps := r.2.2.2 }

/-- One failed result entry as consumed by retry_failed_messages
(result.get('is_retryable', False)). -/
structure FailedEntry where
  message_id : String
  is_retryable : Bool
deriving DecidableEq, Repr

/-- The result of retry_failed_messages: the early success return with
retried = 0, or the ToolResult of the single re-invocation. -/
inductive RetryResult where
  | noneRetryable
  | batch (outcome : BatchSendOutcome)
deriving DecidableEq, Repr

/-- Observable effects of one retry_failed_messages call: its result, the
backoff seconds slept, and how many times send_batch_emails was invoked. -/
structure RetryRun where
  result : RetryResult
  backoff_seconds : Nat
  batch_invocations : Nat
deriving DecidableEq, Repr

/-- EmailSender.retry_failed_messages. -/
def retryFailedMessages (leads : String → Option Lead)
    (provider : String → String → Except String SgResponse) (api_key : String)
    (failed_results : List FailedEntry) (messages : List BatchMsg) : RetryRun :=
  let retryable_ids :=
    (failed_results.filter (fun r => r.is_retryable)).map (fun r => r.message_id)
  if retryable_ids.isEmpty then
    { result := .noneRetryable, backoff_seconds := 0, batch_invocations := 0 }
  else
    let retryable_messages := messages.filter (fun m => retryable_ids.contains m.id)
    { result := .batch (sendBatchEmails leads provider api_key retryable_messages),
      backoff_seconds := 2, batch_invocations := 1 }

/-- C8: a retry over failed results none of which is flagged retryable
returns success with retried = 0, sleeps no backoff, and never invokes
send_batch_emails (hence no provider call). -/
theorem retry_no_retryable (leads : String → Option Lead)
    (provider : String → String → Except String SgResponse) (api_key : String)
    (failed_results : List FailedEntry) (messages : List BatchMsg)
    (h : ∀ r ∈ failed_results, r.is_retryable = false) :
    retryFailedMessages leads provider api_key failed_results messages =
      { result := .noneRetryable, backoff_seconds := 0, batch_invocations := 0 } := by
  have hfil : failed_results.filter (fun r => r.is_retryable) = [] := by
    rw [List.filter_eq_nil_iff]
    intro a ha
    simp [h a ha]
  simp [retryFailedMessages, hfil]

/-- C8 witness: a concrete non-retryable failure list yields the early
return with no backoff and no batch invocation. -/
theorem retry_no_retryable_witness :
    (∀ r ∈ [({ message_id := "m1", is_retryable := false } : FailedEntry)],
        r.is_retryable = false) ∧
    retryFailedMessages (fun _ => none) (fun _ _ => .error "x") "key"
        [{ message_id := "m1", is_retryable := false }]
        [{ id := "m1", lead_id := "l", campaign_id := "c", subject := "s", content := "b" }] =
      { result := .noneRetryable, backoff_seconds := 0, batch_invocations := 0 } :=
  ⟨by decide,
    retry_no_retryable (fun _ => none) (fun _ _ => .error "x") "key"
      [{ message_id := "m1", is_retryable := false }]
      [{ id := "m1", lead_id := "l", campaign_id := "c", subject := "s", content := "b" }]
      (by decide)⟩

/-- Total number of recipients across the content groups. -/
def sumRecipients (groups : List ContentGroup) : Nat :=
  (groups.map (fun g => g.recipients.length)).sum

theorem addToGroups_sum (gs : List ContentGroup) (m : BatchMsg) (l : Lead) :
    sumRecipients (addToGroups gs m l) = sumRecipients gs + 1 := by
  induction gs with
  | nil => simp [addToGroups, sumRecipients]
  | cons g gs ih =>
    by_cases h : g.key = groupKey m
    · simp only [addToGroups, h, if_true, sumRecipients, List.map_cons, List.sum_cons,
        List.length_append, List.length_cons, List.length_nil]
      omega
    · simp only [addToGroups, h, if_false, sumRecipients, List.map_cons, List.sum_cons]
      simp only [sumRecipients] at ih
      omega

/-- When every lead resolves with a usable email, the grouping phase fails
nothing and collects exactly one recipient per message. -/
theorem collectGroups_good (leads : String → Option Lead)
    (hleads : ∀ id, ∃ l, leads id = some l ∧ l.email ≠ "") :
    ∀ (messages : List BatchMsg) (acc : List ContentGroup × Nat × List MsgResult),
      ∃ gs2, messages.foldl (collectStep leads) acc = (gs2, acc.2.1, acc.2.2) ∧
        sumRecipients gs2 = sumRecipients acc.1 + messages.length := by
  intro messages
  induction messages with
  | nil =>
    intro acc
    exact ⟨acc.1, rfl, by simp⟩
  | cons msg rest ih =>
    intro acc
    obtain ⟨l, hl, hne⟩ := hleads msg.lead_id
    have hstep : collectStep leads acc msg = (addToGroups acc.1 msg l, acc.2.1, acc.2.2) := by
      simp [collectStep, hl, hne]
    rw [List.foldl_cons, hstep]
    obtain ⟨gs2, heq, hsum⟩ := ih (addToGroups acc.1 msg l, acc.2.1, acc.2.2)
    refine ⟨gs2, heq, ?_⟩
    rw [hsum]
    simp only [addToGroups_sum, List.length_cons]
    omega

/-- When the provider succeeds on every group, the send phase fails
nothing and counts every recipient as sent. -/
theorem sendContentGroups_good (provider : String → String → Except String SgResponse)
    (hprov : ∀ s c, ∃ resp, provider s c = .ok resp) :
    ∀ (groups : List ContentGroup) (acc : Nat × Nat × List MsgResult),
      ∃ rs, groups.foldl (sendStep provider) acc =
        (acc.1 + sumRecipients groups, acc.2.1, rs) := by
  intro groups
  induction groups with
  | nil =>
    intro acc
    exact ⟨acc.2.2, by simp [sumRecipients]⟩
  | cons g gs ih =>
    intro acc
    by_cases hemp : g.recipients.isEmpty
    · have hstep : sendStep provider acc g = acc := by
        simp [sendStep, hemp]
      rw [List.foldl_cons, hstep]
      obtain ⟨rs, heq⟩ := ih acc
      refine ⟨rs, ?_⟩
      rw [heq]
      have hlen : g.recipients.length = 0 := by
        rw [List.isEmpty_iff] at hemp
        simp [hemp]
      have hsg : sumRecipients (g :: gs) = sumRecipients gs := by
        simp [sumRecipients, hlen]
      rw [hsg]
    · obtain ⟨resp, hresp⟩ := hprov g.subject g.content
      have hstep : sendStep provider acc g =
          (acc.1 + g.recipients.length, acc.2.1,
            acc.2.2 ++ g.recipients.map (fun r =>
              MsgResult.success r.1.id resp.sendgrid_message_id resp.status_code)) := by
        simp [sendStep, hemp, hresp]
      rw [List.foldl_cons, hstep]
      obtain ⟨rs, heq⟩ := ih (acc.1 + g.recipients.length, acc.2.1,
        acc.2.2 ++ g.recipients.map (fun r =>
          MsgResult.success r.1.id resp.sendgrid_message_id resp.status_code))
      refine ⟨rs, ?_⟩
      rw [heq]
      have hsg : sumRecipients (g :: gs) = g.recipients.length + sumRecipients gs := by
        simp [sumRecipients]
      rw [hsg]
      have : acc.1 + g.recipients.length + sumRecipients gs =
          acc.1 + (g.recipients.length + sumRecipients gs) := by omega
      rw [this]

/-- One chunk with good leads and a good provider: everything is sent. -/
theorem sendBatchWithPersonalizations_good (leads : String → Option Lead)
    (provider : String → String → Except String SgResponse)
    (hleads : ∀ id, ∃ l, leads id = some l ∧ l.email ≠ "")
    (hprov : ∀ s c, ∃ resp, provider s c = .ok resp) (messages : List BatchMsg) :
    ∃ rs, sendBatchWithPersonalizations leads provider messages =
      (messages.length, 0, rs) := by
  obtain ⟨gs2, hcollect, hsum⟩ := collectGroups_good leads hleads messages ([], 0, [])
  obtain ⟨rs, hsend⟩ := sendContentGroups_good provider hprov gs2 (0, 0, [])
  refine ⟨rs, ?_⟩
  simp only [sendBatchWithPersonalizations, collectGroups, sendContentGroups, hcollect, hsend]
  have hsum2 : sumRecipients gs2 = messages.length := by
    simpa [sumRecipients] using hsum
  simp [hsum2]

/-- All chunks with good leads and a good provider: sent equals the total
length, nothing fails, and the sender sleeps once per chunk boundary. -/
theorem sendChunkList_good (leads : String → Option Lead)
    (provider : String → String → Except String SgResponse)
    (hleads : ∀ id, ∃ l, leads id = some l ∧ l.email ≠ "")
    (hprov : ∀ s c, ∃ resp, provider s c = .ok resp) :
    ∀ chunks : List (List BatchMsg),
      ∃ rs, sendChunkList leads provider chunks =
        ((chunks.map List.length).sum, 0, rs, chunks.length - 1) := by
  intro chunks
  induction chunks with
  | nil => exact ⟨[], rfl⟩
  | cons chunk rest ih =>
    cases rest with
    | nil =>
      obtain ⟨rs, h⟩ := sendBatchWithPersonalizations_good leads provider hleads hprov chunk
      refine ⟨rs, ?_⟩
      simp only [sendChunkList, h]
      simp
    | cons next rest2 =>
      obtain ⟨rs1, h1⟩ := sendBatchWithPersonalizations_good leads provider hleads hprov chunk
      obtain ⟨rs2, h2⟩ := ih
      refine ⟨rs1 ++ rs2, ?_⟩
      simp only [sendChunkList, h1, h2]
      simp only [List.map_cons, List.sum_cons, List.length_cons]
      refine congrArg₂ Prod.mk rfl ?_
      refine congrArg₂ Prod.mk rfl ?_
      refine congrArg₂ Prod.mk rfl ?_
      omega

/-- C7: for every batch of 150 due messages, send_batch_emails issues
exactly two delivery chunks of 100 and 50 messages, sleeps the inter-chunk
interval exactly once (between the chunks, not after the last), and, when
every lead resolves and the provider succeeds on every content group of
both chunks, reports success with sent = 150 and failed = 0. -/
theorem batch_150_two_chunks (leads : String → Option Lead)
    (provider : String → String → Except String SgResponse)
    (api_key : String) (messages : List BatchMsg)
    (hlen : messages.length = 150)
    (hkey : api_key ≠ "")
    (hleads : ∀ id, ∃ l, leads id = some l ∧ l.email ≠ "")
    (hprov : ∀ s c, ∃ resp, provider s c = .ok resp) :
    chunkList messages = [messages.take 100, messages.drop 100] ∧
    (messages.take 100).length = 100 ∧ (messages.drop 100).length = 50 ∧
    (sendBatchEmails leads provider api_key messages).success = true ∧
    (sendBatchEmails leads provider api_key messages).sent = 150 ∧
    (sendBatchEmails leads provider api_key messages).failed = 0 ∧
    (sendBatchEmails leads provider api_key messages).sleeps = 1 := by
  have hlen1 : (messages.take 100).length = 100 := by
    simp [List.length_take, hlen]
  have hlen2 : (messages.drop 100).length = 50 := by
    simp [List.length_drop, hlen]
  have hchunks : chunkList messages = [messages.take 100, messages.drop 100] := by
    cases hm : messages with
    | nil => rw [hm] at hlen; simp at hlen
    | cons m0 mrest =>
      rw [← hm]
      rw [hm]
      simp only [chunkList, BATCH_SIZE]
      rw [← hm]
      cases hdrop : messages.drop 100 with
      | nil => rw [hdrop] at hlen2; simp at hlen2
      | cons d0 drest =>
        rw [← hdrop]
        have hrec : chunkList (messages.drop 100) =
            [(messages.drop 100).take BATCH_SIZE] := by
          rw [hdrop]
          simp only [chunkList, BATCH_SIZE]
          rw [← hdrop]
          have hd2 : (messages.drop 100).drop 100 = [] := by
            apply List.drop_eq_nil_of_le
            omega
          rw [hd2]
          simp [chunkList]
        rw [hrec]
        have htk : (messages.drop 100).take BATCH_SIZE = messages.drop 100 := by
          apply List.take_of_length_le
          simp only [BATCH_SIZE]
          omega
        rw [htk]
  have hne : messages.isEmpty = false := by
    cases messages with
    | nil => simp at hlen
    | cons a b => rfl
  obtain ⟨rs, hgood⟩ := sendChunkList_good leads provider hleads hprov (chunkList messages)
  have hout : sendBatchEmails leads provider api_key messages =
      { success := true, error := none,
        sent := ((chunkList messages).map List.length).sum, failed := 0,
        total := messages.length, results := rs,
        sleeps := (chunkList messages).length - 1 } := by
    simp only [sendBatchEmails, hne, Bool.false_eq_true, if_false, hkey]
    rw [hgood]
  have hsum : ((chunkList messages).map List.length).sum = 150 := by
    rw [hchunks]
    simp [hlen1, hlen2]
  have hsl : (chunkList messages).length - 1 = 1 := by
    rw [hchunks]
    rfl
  refine ⟨hchunks, hlen1, hlen2, ?_, ?_, ?_, ?_⟩
  · rw [hout]
  · rw [hout]
    simp [hsum]
  · rw [hout]
  · rw [hout]
    simp [hsl]

/-- Concrete 150-message batch, lead store, and provider for the C7
witness. -/
def exBatch : List BatchMsg :=
  List.replicate 150 ⟨"m", "lead", "c", "s", "b"⟩

def exLeads : String → Option Lead := fun _ => some ⟨"a@b.c", "F", "L", "Co", "T"⟩

def exProvider : String → String → Except String SgResponse := fun _ _ => .ok ⟨some "sg", 202⟩

/-- C7 witness: the concrete 150-message batch satisfies the hypotheses and
yields sent = 150 with exactly one inter-chunk sleep. -/
theorem batch_150_two_chunks_witness :
    (exBatch.length = 150 ∧ ("key" : String) ≠ "" ∧
      (∀ id, ∃ l, exLeads id = some l ∧ l.email ≠ "") ∧
      (∀ s c, ∃ resp, exProvider s c = .ok resp)) ∧
    (sendBatchEmails exLeads exProvider "key" exBatch).sent = 150 ∧
    (sendBatchEmails exLeads exProvider "key" exBatch).failed = 0 ∧
    (sendBatchEmails exLeads exProvider "key" exBatch).sleeps = 1 := by
  have h := batch_150_two_chunks exLeads exProvider "key" exBatch
    (by simp [exBatch]) (by decide)
    (fun id => ⟨⟨"a@b.c", "F", "L", "Co", "T"⟩, rfl, by decide⟩)
    (fun s c => ⟨⟨some "sg", 202⟩, rfl⟩)
  exact ⟨⟨by simp [exBatch], by decide,
      fun id => ⟨⟨"a@b.c", "F", "L", "Co", "T"⟩, rfl, by decide⟩,
      fun s c => ⟨⟨some "sg", 202⟩, rfl⟩⟩,
    h.2.2.2.2.1, h.2.2.2.2.2.1, h.2.2.2.2.2.2⟩

/-! ## Delivery event tracker (routers/webhooks.py)

The SendGrid callback payload is modelled per event; Python's
`a or b` on possibly-empty identifier strings and the `if not message_id`
falsy test are modelled explicitly.  The message and campaign tables are
functions from id to row.  The campaign metric float rates (open_rate,
click_rate) are recomputed percentages and are outside this integer model;
no claim depends on them. -/

/-- One SendGrid callback event (fields read by process_sendgrid_event,
with the custom_args fallbacks flattened). -/
structure SgEvent where
  event : Option String
  message_id : Option String
  campaign_id : Option String
  lead_id : Option String
  custom_args_message_id : Option String
  custom_args_campaign_id : Option String
  custom_args_lead_id : Option String
  timestamp : Int
  ip : Option String
  useragent : Option String
  url : Option String
  reason : Option String
  response : Option String
  sg_event_id : Option String
  sg_message_id : Option String
deriving DecidableEq, Repr

/-- Python a or b on optional strings: empty and missing are falsy. -/
def pyOr (a b : Option String) : Option String :=
  match a with
  | some s => if s = "" then b else some s
  | none => b

/-- Python truthiness of an optional string. -/
def truthy (o : Option String) : Bool :=
  match o with
  | some s => !(s == "")
  | none => false

/-- message_id resolution: event.get('message_id') or
custom_args.get('message_id'). -/
def resolvedMessageId (ev : SgEvent) : Option String :=
  pyOr ev.message_id ev.custom_args_message_id

/-- campaign_id resolution, same fallback scheme. -/
def resolvedCampaignId (ev : SgEvent) : Option String :=
  pyOr ev.campaign_id ev.custom_args_campaign_id

/-- One normalized entry of the message's tracking_events log. -/
structure TrackingEvent where
  event : Option String
  timestamp : Int
  ip : Option String
  user_agent : Option String
  url : Option String
  reason : Option String
  response : Option String
  sg_event_id : Option String
  sg_message_id : Option String
deriving DecidableEq, Repr

/-- The message row fields process_sendgrid_event reads and writes. -/
structure TrackedMessage where
  status : String
  tracking_events : List TrackingEvent
  delivered_at : Option Int
  opened_at : Option Int
  clicked_at : Option Int
  bounced_at : Option Int
  unsubscribed_at : Option Int
  send_error : Option String
deriving DecidableEq, Repr

/-- Campaign email_metrics counters (the recomputed float rates are
omitted from the integer model). -/
structure CampaignMetrics where
  sent : Nat
  delivered : Nat
  opened : Nat
  clicked : Nat
  bounced : Nat
  unsubscribed : Nat
deriving DecidableEq, Repr

/-- The event-type dispatch of process_sendgrid_event: timestamp fields,
status transitions, and the bounce send_error (which is
tracking_event.get('reason', ...); the reason key is always present, so
the stored value is the event's reason field). -/
def applyEventType (r : TrackedMessage) (ev : SgEvent) : TrackedMessage :=
  match ev.event with
  | some "delivered" => { r with delivered_at := some ev.timestamp, status := "delivered" }
  | some "open" => { r with opened_at := some ev.timestamp }
  | some "click" => { r with clicked_at := some ev.timestamp }
  | some "bounce" =>
    { r with bounced_at := some ev.timestamp, status := "bounced", send_error := ev.reason }
  | some "unsubscribe" =>
    { r with unsubscribed_at := some ev.timestamp, status := "unsubscribed" }
  | _ => r

/-- The metric_map increment of update_campaign_metrics. -/
def bumpMetric (mets : CampaignMetrics) (event_type : Option String) : CampaignMetrics :=
  match event_type with
  | some "processed" => { mets with sent := mets.sent + 1 }
  | some "delivered" => { mets with delivered := mets.delivered + 1 }
  | some "open" => { mets with opened := mets.opened + 1 }
  | some "click" => { mets with clicked := mets.clicked + 1 }
  | some "bounce" => { mets with bounced := mets.bounced + 1 }
  | some "unsubscribe" => { mets with unsubscribed := mets.unsubscribed + 1 }
  | _ => mets

/-- update_campaign_metrics: missing campaign rows are logged and skipped;
an unmapped event type writes the metrics back unchanged. -/
def updateCampaignMetrics (camps : String → Option CampaignMetrics) (campaign_id : String)
    (event_type : Option String) : String → Option CampaignMetrics :=
  match camps campaign_id with
  | none => camps
  | some mets => fun k => if k = campaign_id then some (bumpMetric mets event_type) else camps k

/-- What happened to one ingested event. -/
inductive ProcessOutcome where
  | droppedMissingId
  | droppedNotFound
  | processed
deriving DecidableEq, Repr

/-- process_sendgrid_event over explicit message/campaign stores: events
with no resolvable message id are dropped before any store access; unknown
message ids are dropped after the lookup; otherwise the tracking log is
appended, the event-type fields applied, and the campaign metrics bumped
when a campaign id is present. -/
def processSendgridEvent (msgs : String → Option TrackedMessage)
    (camps : String → Option CampaignMetrics) (ev : SgEvent) :
    (String → Option TrackedMessage) × (String → Option CampaignMetrics) × ProcessOutcome :=
  if truthy (resolvedMessageId ev) = false then (msgs, camps, .droppedMissingId)
  else
    let mid := (resolvedMessageId ev).getD ""
    match msgs mid with
    | none => (msgs, camps, .droppedNotFound)
    | some r =>
      let te : TrackingEvent :=
        ⟨ev.event, ev.timestamp, ev.ip, ev.useragent, ev.url, ev.reason, ev.response,
          ev.sg_event_id, ev.sg_message_id⟩
      let r2 := applyEventType { r with tracking_events := r.tracking_events ++ [te] } ev
      let msgs2 : String → Option TrackedMessage :=
        fun k => if k = mid then some r2 else msgs k
      if truthy (resolvedCampaignId ev) then
        (msgs2, updateCampaignMetrics camps ((resolvedCampaignId ev).getD "") ev.event,
          .processed)
      else (msgs2, camps, .processed)

/-- handle_sendgrid_webhook: setup models get_supabase, processEvent the
per-event processing (its Except models a raised exception, caught by the
per-event try block).  Returns (http status, processed count, error
count); both the per-event and the whole-handler exception paths answer
200. -/
def handleSendgridWebhook (setup : Except String Unit)
    (processEvent : SgEvent → Except String Unit) (events : List SgEvent) :
    Nat × Nat × Nat :=
  match setup with
  | .error _ => (200, 0, 0)
  | .ok _ =>
    let counts := events.foldl
      (fun (acc : Nat × Nat) ev =>
        match processEvent ev with
        | .ok _ => (acc.1 + 1, acc.2)
        | .error _ => (acc.1, acc.2 + 1))
      (0, 0)
    (200, counts.1, counts.2)

/-- C9: the ingestion endpoint answers HTTP 200 for every batch, whatever
the per-event processing does (including raising) and even when setup
fails; and an event with no resolvable message identifier is dropped
before any store mutation, leaving both stores unchanged and reporting no
error to the caller. -/
theorem webhook_always_acknowledges (setup : Except String Unit)
    (processEvent : SgEvent → Except String Unit) (events : List SgEvent)
    (msgs : String → Option TrackedMessage) (camps : String → Option CampaignMetrics)
    (ev : SgEvent) (hid : truthy (resolvedMessageId ev) = false) :
    (handleSendgridWebhook setup processEvent events).1 = 200 ∧
    processSendgridEvent msgs camps ev = (msgs, camps, .droppedMissingId) := by
  constructor
  · cases setup <;> rfl
  · simp [processSendgridEvent, hid]

/-- Concrete event with an empty custom_args message id for the C9
witness. -/
def exEvent : SgEvent :=
  { event := some "bounce", message_id := none, campaign_id := some "c", lead_id := none,
    custom_args_message_id := some "", custom_args_campaign_id := none,
    custom_args_lead_id := none, timestamp := 5, ip := none, useragent := none,
    url := none, reason := some "bad address", response := none, sg_event_id := none,
    sg_message_id := none }

/-- C9 witness: a malformed bounce event (empty message id) is dropped
with the stores untouched, and the handler still answers 200 even when
processing raises on it. -/
theorem webhook_always_acknowledges_witness :
    truthy (resolvedMessageId exEvent) = false ∧
    (handleSendgridWebhook (.ok ()) (fun _ => .error "boom") [exEvent]).1 = 200 ∧
    processSendgridEvent (fun _ => none) (fun _ => none) exEvent =
      (fun _ => none, fun _ => none, .droppedMissingId) := by
  have h := webhook_always_acknowledges (.ok ()) (fun _ => .error "boom") [exEvent]
    (fun _ => none) (fun _ => none) exEvent (by decide)
  exact ⟨by decide, h.1, h.2⟩

end Outreach
